import Mathlib

/-!
Shallow embedding of `src/ChatGPT-translate.py` (repository
ChatGPT-for-Translation): paragraph splitting, the rate-limit backoff
counter, the parallel batch translation step, document reassembly
(bilingual interleaving, newline collapsing, reference handling), the
argument parser's resolved options, and the pre-existing-output skip
check.  The remote oracle is abstracted as a function `String → String`;
thread-pool concurrency is modelled by its documented denotation
(`Executor.map` yields results in the order of its input).  Python string
primitives (`split`, `strip`, `startswith`, `endswith`, `lower`) are
modelled structurally over `List Char` so that every definition evaluates
inside the kernel.
-/

namespace ChatGPTTranslate

/-- The characters removed by Python's `str.strip()` (the ASCII
whitespace set; the inputs in question contain no non-ASCII whitespace). -/
def isPythonSpace (c : Char) : Bool :=
  c = ' ' || c = '\t' || c = '\n' || c = '\r' || c = '\x0b' || c = '\x0c'

/-- Python `s.strip()`: drop leading and trailing whitespace. -/
def pyStrip (s : String) : String :=
  ⟨((s.data.dropWhile isPythonSpace).reverse.dropWhile isPythonSpace).reverse⟩

/-- Python `text.split("\n")` on the character list: split at every
newline, keeping empty segments (`"a\n\nb"` gives three segments). -/
def py_split_chars : List Char → List (List Char)
  | [] => [[]]
  | '\n' :: rest => [] :: py_split_chars rest
  | c :: rest =>
    match py_split_chars rest with
    | s :: ss => (c :: s) :: ss
    | [] => [[c]]

/-- Python `text.split("\n")`. -/
def py_split_newline (text : String) : List String :=
  (py_split_chars text.data).map String.mk

/-- Python `s.startswith(pre)`. -/
def py_startswith (s pre : String) : Bool :=
  pre.data.isPrefixOf s.data

/-- Python `s.endswith(suf)`. -/
def py_endswith (s suf : String) : Bool :=
  suf.data.isSuffixOf s.data

/-- Python `s.lower()` (ASCII case folding; the extensions compared with
it are ASCII). -/
def py_lower (s : String) : String :=
  ⟨s.data.map Char.toLower⟩

/-- Line 171 of the source:
`paragraphs = [p.strip() for p in text.split("\n") if p.strip() != ""]`. -/
def read_and_preprocess_data (text : String) : List String :=
  ((py_split_newline text).map pyStrip).filter (fun p => p ≠ "")

/-- Model of `re.sub(r"\n\x7b2,\x7d", "\n", text)` (line 126): scanning left
to right, each maximal run of two or more newline characters is replaced
by a single newline; all other characters are kept. -/
def reSubNewlines : List Char → List Char
  | [] => []
  | [c] => [c]
  | c1 :: c2 :: rest =>
    if c1 = '\n' ∧ c2 = '\n' then
      '\n' :: reSubNewlines (rest.dropWhile (fun c => c = '\n'))
    else
      c1 :: reSubNewlines (c2 :: rest)
termination_by l => l.length
decreasing_by
  · simp only [List.length_cons]
    have := (List.dropWhile_sublist (l := rest) (fun c => c = '\n')).length_le
    omega
  · simp

/-- `re.sub(r"\n\x7b2,\x7d", "\n", s)` lifted to `String`. -/
def removeExtraNewlines (s : String) : String :=
  ⟨reSubNewlines s.data⟩

/-- Denotation of `executor.map(translator.translate, paragraphs)`
(lines 100-105): `ThreadPoolExecutor.map` applies the function to every
element and yields the results in the order of the input iterable, so its
functional meaning is `List.map`. -/
def executor_map (translate : String → String) (paragraphs : List String) :
    List String :=
  paragraphs.map translate

/-- Lines 100-106: the parallel batch translation step followed by
`[p.strip() for p in translated_paragraphs]`. -/
def translate_all (translate : String → String) (paragraphs : List String) :
    List String :=
  (executor_map translate paragraphs).map pyStrip

/-- Lines 110-112: `"\n".join(f"..." for paragraph, translation in
zip(paragraphs, translated_paragraphs))`, each pair rendered as
`paragraph ++ "\n" ++ translation`. -/
def bilingual_join (paragraphs translated_paragraphs : List String) : String :=
  String.intercalate "\n"
    ((paragraphs.zip translated_paragraphs).map fun pt => pt.1 ++ "\n" ++ pt.2)

/-- The argparse `Namespace` produced by `parse_arguments` (the fields
set by the declared arguments). -/
structure Options where
  openai_key : String
  num_threads : Nat
  bilingual : Bool
  target_language : String
  not_to_translate_people_names : Bool
  include_references : Bool
  keep_first_three_paragraphs : Bool
  deriving Repr, DecidableEq

/-- The `for i, p in enumerate(paragraphs): if p.startswith("References"):
... break` loop of lines 93-98: index of the first paragraph starting with
`"References"`, if any. -/
def find_references_aux : Nat → List String → Option Nat
  | _, [] => none
  | i, p :: rest =>
    if py_startswith p "References" then some i
    else find_references_aux (i + 1) rest

/-- Index of the first paragraph starting with `"References"`. -/
def find_references_index (paragraphs : List String) : Option Nat :=
  find_references_aux 0 paragraphs

/-- Lines 81-137 (`translate_text_file`), from the point where the
paragraph list is available.  Returns the list of paragraphs handed to the
oracle together with either the text written to the output file or the
uncaught Python exception that terminates the call.

In the source, `ref_paragraphs` is assigned only inside the
`for`/`break` at lines 93-98, and `translated_paragraphs` /
`translated_text` only inside the `if options.include_references:` block
at lines 92-108; a later read of a name that was never assigned raises
`NameError`. -/
def translate_text_file (translate : String → String) (options : Options)
    (paragraphs0 : List String) : List String × Except String String :=
  let first_three_paragraphs := paragraphs0.take 3
  if options.include_references then
    let refIdx := find_references_index paragraphs0
    let paragraphs := match refIdx with
      | some i => paragraphs0.take i
      | none => paragraphs0
    let ref_paragraphs : Option (List String) := match refIdx with
      | some i => some (paragraphs0.drop i)
      | none => none
    let translated_paragraphs := translate_all translate paragraphs
    let translated_text := String.intercalate "\n" translated_paragraphs
    if options.bilingual then
      let bilingual_text := bilingual_join paragraphs translated_paragraphs
      let bilingual_text :=
        if options.keep_first_three_paragraphs then
          String.intercalate "\n" first_three_paragraphs ++ "\n" ++ bilingual_text
        else bilingual_text
      match ref_paragraphs with
      | some refs =>
        (paragraphs, .ok (bilingual_text ++ String.intercalate "\n" refs))
      | none =>
        (paragraphs, .error "NameError: name ref_paragraphs is not defined")
    else
      let translated_text := removeExtraNewlines translated_text
      let translated_text :=
        if options.keep_first_three_paragraphs then
          String.intercalate "\n" first_three_paragraphs ++ "\n" ++ translated_text
        else translated_text
      match ref_paragraphs with
      | some refs =>
        (paragraphs, .ok (translated_text ++ String.intercalate "\n" refs))
      | none =>
        (paragraphs, .error "NameError: name ref_paragraphs is not defined")
  else
    if options.bilingual then
      ([], .error "NameError: name translated_paragraphs is not defined")
    else
      ([], .error "NameError: name translated_text is not defined")

/-- `self.request_interval = 1` in `ChatGPT.__init__` (line 21). -/
def request_interval_init : Nat := 1

/-- `self.max_backoff_time = 60` in `ChatGPT.__init__` (line 22). -/
def max_backoff_time : Nat := 60

/-- Lines 69-71, run once per failed request:
`self.request_interval *= 2` followed by the cap
`if self.request_interval > self.max_backoff_time: ... = self.max_backoff_time`. -/
def backoff_update (request_interval : Nat) : Nat :=
  let doubled := request_interval * 2
  if doubled > max_backoff_time then max_backoff_time else doubled

/-- The value of `self.request_interval` after `n` failed requests in one
run of the client. -/
def request_interval_after : Nat → Nat
  | 0 => request_interval_init
  | n + 1 => backoff_update (request_interval_after n)

/-- One command-line invocation, as seen by `parse_arguments`
(lines 175-240): for each `store_true` argument, whether its flag appears
on the command line; for each value argument, the value argparse resolved
(supplied value or declared default). -/
structure CLIInvocation where
  input_path : String
  openai_key : String
  num_threads : Nat
  bilingual_flag : Bool
  target_language : String
  not_to_translate_people_names_flag : Bool
  include_references_flag : Bool
  keep_first_three_paragraphs_flag : Bool
  deriving Repr, DecidableEq

/-- argparse `action="store_true"`: the destination is `True` when the
flag appears, and the declared `default` otherwise. -/
def store_true (flag_present : Bool) (dflt : Bool) : Bool :=
  if flag_present then true else dflt

/-- The `Namespace` returned by `parser.parse_args()` for one invocation
(lines 178-236): `--bilingual` has `default=False`; the three policy flags
have `default=True`. -/
def resolve_options (cli : CLIInvocation) : Options where
  openai_key := cli.openai_key
  num_threads := cli.num_threads
  bilingual := store_true cli.bilingual_flag false
  target_language := cli.target_language
  not_to_translate_people_names :=
    store_true cli.not_to_translate_people_names_flag true
  include_references := store_true cli.include_references_flag true
  keep_first_three_paragraphs :=
    store_true cli.keep_first_three_paragraphs_flag true

/-- Lines 175-240 (`parse_arguments`): parse, then
`OPENAI_API_KEY = options.openai_key or os.environ.get("OPENAI_API_KEY")`
and `if not OPENAI_API_KEY: raise Exception(...)`.  The environment
lookup is `none` when the variable is unset. -/
def parse_arguments (cli : CLIInvocation)
    (env_openai_api_key : Option String) : Except String Options :=
  let options := resolve_options cli
  let OPENAI_API_KEY : Option String :=
    if options.openai_key ≠ "" then some options.openai_key
    else env_openai_api_key
  match OPENAI_API_KEY with
  | none => .error "Exception: Please provide your OpenAI API key"
  | some k =>
    if k = "" then .error "Exception: Please provide your OpenAI API key"
    else .ok options

/-- Line 12 of the source. -/
def ALLOWED_FILE_TYPES : List String := [".txt", ".md", ".rtf", ".html"]

/-- A `pathlib.Path` as used by `check_file_path`: its stem and suffix
(paths in the claims are plain file names, so `str(file_path)` is
`stem ++ suffix`). -/
structure PyFilePath where
  stem : String
  suffix : String
  deriving Repr, DecidableEq

/-- Python `str(file_path)` for a bare file name. -/
def PyFilePath.str (p : PyFilePath) : String := p.stem ++ p.suffix

/-- `options.get("bilingual", False)` where `options` is the argparse
`Namespace` built by `parse_arguments`: `argparse.Namespace` has
attributes only for the declared arguments and defines no `get` method,
so evaluating this attribute lookup raises `AttributeError`. -/
def namespace_get (options : Options) (key : String) (dflt : Bool) :
    Except String Bool :=
  .error "AttributeError: Namespace object has no attribute get"

/-- Lines 242-267 (`check_file_path`).  `existing_files` lists the names
for which `.exists()` returns `True`; `options` is `None` or the argparse
`Namespace` (as passed by `process_file`).  Returns the function's return
value, or the uncaught Python exception.  Python's short-circuit
evaluation of `(A or B) and not (options and options.get(...))` is
mirrored: the `options.get` lookup is only reached when a sibling output
file exists. -/
def check_file_path (existing_files : List String) (file_path : PyFilePath)
    (options : Option Options) : Except String Bool :=
  if ¬ (ALLOWED_FILE_TYPES.contains (py_lower file_path.suffix))
      ∧ ¬ (py_startswith file_path.str "http") then
    .error "Exception: Please use a txt file or URL"
  else if py_endswith file_path.stem "_translated"
      || py_endswith file_path.stem "extracted_translated" then
    .ok false
  else if py_endswith file_path.stem "_bilingual"
      || py_endswith file_path.stem "extracted_bilingual" then
    .ok false
  else do
    let translated_exists :=
      existing_files.contains (file_path.stem ++ "_translated" ++ file_path.suffix)
        || existing_files.contains
            (file_path.stem ++ "_extracted_translated" ++ file_path.suffix)
    let cond258 ← if translated_exists then
        match options with
        | none => pure true
        | some ns => do
          let b ← namespace_get ns "bilingual" false
          pure (!b)
      else pure false
    if cond258 then return false
    let bilingual_exists :=
      existing_files.contains (file_path.stem ++ "_bilingual" ++ file_path.suffix)
        || existing_files.contains
            (file_path.stem ++ "_extracted_bilingual" ++ file_path.suffix)
    let cond262 ← if bilingual_exists then
        match options with
        | none => pure false
        | some ns => namespace_get ns "bilingual" false
      else pure false
    if cond262 then return false
    return true

/-- Stated from the spec's words, for comparison with `bilingual_join`:
"interleave each source body paragraph immediately followed by its
translation". -/
def spec_interleave : List String → List String → List String
  | p :: ps, t :: ts => p :: t :: spec_interleave ps ts
  | _, _ => []

/-- A character list with no two consecutive newline characters. -/
def no_double_newline : List Char → Bool
  | c1 :: c2 :: rest =>
    (!(c1 = '\n' && c2 = '\n')) && no_double_newline (c2 :: rest)
  | _ => true

theorem request_interval_bounds (n : Nat) :
    1 ≤ request_interval_after n ∧ request_interval_after n ≤ max_backoff_time := by
  induction n with
  | zero =>
    refine ⟨le_refl 1, ?_⟩
    simp [request_interval_after, request_interval_init, max_backoff_time]
  | succ n ih =>
    obtain ⟨h1, h2⟩ := ih
    simp only [request_interval_after, backoff_update, max_backoff_time] at *
    split <;> omega

/-- C1: the parallel batch translation step (`executor.map` over the
paragraph list) returns a sequence of the same length as its input, and
the i-th element of the output is the oracle translation of the i-th
input paragraph: input order is preserved in the result. -/
theorem C1_batch_translation_order_preserving
    (translate : String → String) (paragraphs : List String) :
    (executor_map translate paragraphs).length = paragraphs.length ∧
    ∀ i (h1 : i < (executor_map translate paragraphs).length)
      (h2 : i < paragraphs.length),
      (executor_map translate paragraphs).get ⟨i, h1⟩ =
        translate (paragraphs.get ⟨i, h2⟩) := by
  refine ⟨by simp [executor_map], ?_⟩
  intro i h1 h2
  simp [executor_map]

theorem C1_batch_translation_order_preserving_witness :
    (executor_map (fun s => s ++ "!") ["a", "b"]).get ⟨1, by decide⟩ =
      (fun s => s ++ "!") (["a", "b"].get ⟨1, by decide⟩) :=
  (C1_batch_translation_order_preserving (fun s => s ++ "!") ["a", "b"]).2
    1 (by decide) (by decide)

/-- C4: after each failed request the backoff interval never exceeds the
configured maximum (60s), never decreases, strictly increases while it is
below the maximum, doubles exactly while the doubled value is within the
maximum, and is set to exactly the maximum once doubling would pass it. -/
theorem C4_backoff_doubles_up_to_cap (n : Nat) :
    request_interval_after n ≤ max_backoff_time ∧
    request_interval_after n ≤ request_interval_after (n + 1) ∧
    (request_interval_after n < max_backoff_time →
      request_interval_after n < request_interval_after (n + 1)) ∧
    (request_interval_after n * 2 ≤ max_backoff_time →
      request_interval_after (n + 1) = request_interval_after n * 2) ∧
    (max_backoff_time < request_interval_after n * 2 →
      request_interval_after (n + 1) = max_backoff_time) := by
  obtain ⟨h1, h2⟩ := request_interval_bounds n
  refine ⟨h2, ?_, ?_, ?_, ?_⟩ <;>
    · simp only [request_interval_after, backoff_update, max_backoff_time] at *
      split <;> omega

theorem C4_backoff_doubles_up_to_cap_witness :
    request_interval_after 4 < request_interval_after 5 ∧
    request_interval_after 5 = request_interval_after 4 * 2 :=
  ⟨(C4_backoff_doubles_up_to_cap 4).2.2.1 (by decide),
   (C4_backoff_doubles_up_to_cap 4).2.2.2.1 (by decide)⟩

/-- C9: for every invocation accepted by the argument parser, the
resolved options `not_to_translate_people_names`, `include_references`
and `keep_first_three_paragraphs` are all `True`, whether or not their
flags were passed: each is a `store_true` flag whose default is already
`True`, so none of the three policies can be disabled from the CLI. -/
theorem C9_policy_flags_always_true (cli : CLIInvocation)
    (env_openai_api_key : Option String) (options : Options)
    (h : parse_arguments cli env_openai_api_key = .ok options) :
    options.not_to_translate_people_names = true ∧
    options.include_references = true ∧
    options.keep_first_three_paragraphs = true := by
  simp only [parse_arguments] at h
  split at h
  · exact absurd h (by simp)
  · split at h
    · exact absurd h (by simp)
    · cases h
      simp [resolve_options, store_true]

theorem C9_policy_flags_always_true_witness :
    (resolve_options
        ⟨"doc.txt", "", 10, false, "French", false, false, false⟩).not_to_translate_people_names = true ∧
    (resolve_options
        ⟨"doc.txt", "", 10, false, "French", false, false, false⟩).include_references = true ∧
    (resolve_options
        ⟨"doc.txt", "", 10, false, "French", false, false, false⟩).keep_first_three_paragraphs = true :=
  C9_policy_flags_always_true
    ⟨"doc.txt", "", 10, false, "French", false, false, false⟩
    (some "sk-test") _ rfl

/-- C10: whenever `include_references` is `False`, the pipeline performs
no oracle calls and raises an unhandled `NameError` before writing any
output, in both bilingual and non-bilingual modes, because
`translated_paragraphs` and `translated_text` are assigned only inside
the `include_references` branch. -/
theorem C10_include_references_false_crashes
    (translate : String → String) (options : Options)
    (paragraphs : List String)
    (h : options.include_references = false) :
    (translate_text_file translate options paragraphs).1 = [] ∧
    (translate_text_file translate options paragraphs).2 =
      .error (if options.bilingual then
          "NameError: name translated_paragraphs is not defined"
        else "NameError: name translated_text is not defined") := by
  simp only [translate_text_file, h]
  cases hb : options.bilingual <;> simp

theorem C10_include_references_false_crashes_witness :
    (translate_text_file (fun s => s)
        ⟨"", 10, false, "Simplified Chinese", true, false, true⟩ ["Hello"]).1 = [] ∧
    (translate_text_file (fun s => s)
        ⟨"", 10, false, "Simplified Chinese", true, false, true⟩ ["Hello"]).2 =
      .error (if (Options.mk "" 10 false "Simplified Chinese" true false true).bilingual then
          "NameError: name translated_paragraphs is not defined"
        else "NameError: name translated_text is not defined") :=
  C10_include_references_false_crashes (fun s => s)
    ⟨"", 10, false, "Simplified Chinese", true, false, true⟩ ["Hello"] rfl

/-- C2 counterexample: on a document with no paragraph starting with
`"References"` and `include_references` enabled, the run is not a no-op
that produces a well-formed output file — the whole document is first
sent to the oracle (first component `["Hello"]`) and the run then raises
`NameError`, because `ref_paragraphs` was never assigned. -/
theorem C2_no_references_paragraph_crashes :
    (translate_text_file (fun s => s)
        ⟨"", 10, false, "Simplified Chinese", true, true, true⟩ ["Hello"]).2 =
      .error "NameError: name ref_paragraphs is not defined" ∧
    (translate_text_file (fun s => s)
        ⟨"", 10, false, "Simplified Chinese", true, true, true⟩ ["Hello"]).1 =
      ["Hello"] :=
  ⟨rfl, rfl⟩

/-- C3 counterexample: with `doc.txt` as input, a sibling
`doc_translated.txt` present and non-bilingual argparse options, the
skip check is not a normal control-flow branch: evaluating
`options.get("bilingual", False)` on the argparse `Namespace` raises
`AttributeError`, which propagates out of `process_file`. -/
theorem C3_skip_check_raises_attribute_error :
    check_file_path ["doc.txt", "doc_translated.txt"] ⟨"doc", ".txt"⟩
        (some ⟨"", 10, false, "Simplified Chinese", true, true, true⟩) =
      .error "AttributeError: Namespace object has no attribute get" := rfl

theorem dropWhile_head_false {p : Char → Bool} {l : List Char} {c : Char}
    {t : List Char} (h : l.dropWhile p = c :: t) : p c = false := by
  induction l with
  | nil => simp [List.dropWhile] at h
  | cons a l ih =>
    rw [List.dropWhile_cons] at h
    split at h
    · exact ih h
    · rename_i hpa
      cases h
      simpa using hpa

/-- C5: the paragraph splitter splits on newline characters, trims each
segment and discards segments that are empty after trimming, so it
produces no empty and no whitespace-only paragraph; on the input
`"A\n\n  \nB"` it yields exactly `["A", "B"]`. -/
theorem C5_splitter_discards_blank_segments :
    (∀ text p, p ∈ read_and_preprocess_data text →
      p ≠ "" ∧ ∃ c ∈ p.data, isPythonSpace c = false) ∧
    read_and_preprocess_data "A\n\n  \nB" = ["A", "B"] := by
  constructor
  · intro text p hp
    rw [read_and_preprocess_data, List.mem_filter] at hp
    obtain ⟨hmem, hne⟩ := hp
    have hne' : p ≠ "" := of_decide_eq_true hne
    refine ⟨hne', ?_⟩
    rw [List.mem_map] at hmem
    obtain ⟨q, _, rfl⟩ := hmem
    rcases hcl : (q.data.dropWhile isPythonSpace).reverse.dropWhile isPythonSpace
      with _ | ⟨c, t⟩
    · exact absurd (congrArg String.mk (congrArg List.reverse hcl)) hne'
    · refine ⟨c, ?_, dropWhile_head_false hcl⟩
      show c ∈ ((q.data.dropWhile isPythonSpace).reverse.dropWhile isPythonSpace).reverse
      rw [hcl]
      simp
  · rfl

theorem C5_splitter_discards_blank_segments_witness :
    "A" ≠ "" ∧ ∃ c ∈ "A".data, isPythonSpace c = false :=
  C5_splitter_discards_blank_segments.1 "A\n\n  \nB" "A" (by decide)

theorem intercalate_go_append (s : String) :
    ∀ (l : List String) (a b : String),
      String.intercalate.go (a ++ b) s l = a ++ String.intercalate.go b s l := by
  intro l
  induction l with
  | nil => intro a b; rfl
  | cons x xs ih =>
    intro a b
    show String.intercalate.go (a ++ b ++ s ++ x) s xs =
      a ++ String.intercalate.go (b ++ s ++ x) s xs
    rw [String.append_assoc a b s, String.append_assoc a (b ++ s) x, ih]

theorem intercalate_cons_cons (s a x : String) (l : List String) :
    String.intercalate s (a :: x :: l) =
      (a ++ s) ++ String.intercalate s (x :: l) := by
  show String.intercalate.go ((a ++ s) ++ x) s l =
    (a ++ s) ++ String.intercalate.go x s l
  rw [intercalate_go_append]

/-- C6: for equal-length source and translation sequences, the bilingual
reassembly of lines 110-112 interleaves each source paragraph immediately
followed by its translation, one pair per two lines, in order; on
`["Hello", "World"]` and `["Bonjour", "Monde"]` it yields exactly
`"Hello\nBonjour\nWorld\nMonde"`. -/
theorem C6_bilingual_interleaves_in_order :
    (∀ paragraphs translated_paragraphs : List String,
      paragraphs.length = translated_paragraphs.length →
      bilingual_join paragraphs translated_paragraphs =
        String.intercalate "\n"
          (spec_interleave paragraphs translated_paragraphs)) ∧
    bilingual_join ["Hello", "World"] ["Bonjour", "Monde"] =
      "Hello\nBonjour\nWorld\nMonde" := by
  constructor
  · intro ps ts h
    induction ps generalizing ts with
    | nil =>
      cases ts with
      | nil => rfl
      | cons t ts => simp at h
    | cons p ps ih =>
      cases ts with
      | nil => simp at h
      | cons t ts =>
        have h' : ps.length = ts.length := by simpa using h
        cases ps with
        | nil =>
          cases ts with
          | nil => rfl
          | cons t2 ts2 => simp at h'
        | cons q qs =>
          cases ts with
          | nil => simp at h'
          | cons r rs =>
            have hIH := ih (r :: rs) h'
            show String.intercalate "\n"
                ((p ++ "\n" ++ t) :: (q ++ "\n" ++ r) ::
                  (List.map (fun pt => pt.1 ++ "\n" ++ pt.2) (qs.zip rs))) =
              String.intercalate "\n"
                (p :: t :: q :: r :: spec_interleave qs rs)
            rw [intercalate_cons_cons, intercalate_cons_cons,
              intercalate_cons_cons "\n" t q (r :: spec_interleave qs rs)]
            have hjoin :
                String.intercalate "\n"
                    ((q ++ "\n" ++ r) ::
                      (List.map (fun pt => pt.1 ++ "\n" ++ pt.2) (qs.zip rs))) =
                  String.intercalate "\n" (q :: r :: spec_interleave qs rs) := hIH
            rw [hjoin]
            rw [String.append_assoc (p ++ "\n") t "\n",
              String.append_assoc (p ++ "\n") (t ++ "\n")
                (String.intercalate "\n" (q :: r :: spec_interleave qs rs))]
  · rfl

theorem C6_bilingual_interleaves_in_order_witness :
    bilingual_join ["Hello", "World"] ["Bonjour", "Monde"] =
      String.intercalate "\n"
        (spec_interleave ["Hello", "World"] ["Bonjour", "Monde"]) :=
  C6_bilingual_interleaves_in_order.1 ["Hello", "World"] ["Bonjour", "Monde"]
    (by decide)

theorem find_references_aux_first (l : List String) :
    ∀ (k i : Nat) (hi : i < l.length),
      py_startswith (l.get ⟨i, hi⟩) "References" = true →
      (∀ j (hj : j < l.length), j < i →
        py_startswith (l.get ⟨j, hj⟩) "References" = false) →
      find_references_aux k l = some (k + i) := by
  induction l with
  | nil => intro k i hi; simp at hi
  | cons p rest ih =>
    intro k i hi hp hfirst
    cases i with
    | zero =>
      have hp0 : py_startswith p "References" = true := hp
      simp [find_references_aux, hp0]
    | succ i =>
      have hp0 : py_startswith p "References" = false :=
        hfirst 0 (by simp) (Nat.succ_pos i)
      simp only [find_references_aux, hp0, Bool.false_eq_true, if_false]
      have hrest := ih (k + 1) i (by simpa using hi) hp
        (fun j hj hlt => hfirst (j + 1) (by simpa using hj) (by omega))
      rw [hrest]
      congr 1
      omega

/-- C8: when `include_references` is enabled and index `i` is the first
index whose paragraph begins with `"References"`, no paragraph at index
`i` or later is passed to the oracle (exactly `paragraphs.take i` is),
and the output text ends with the verbatim newline-join of
`paragraphs.drop i`. -/
theorem C8_references_never_translated_appended_verbatim
    (translate : String → String) (options : Options)
    (paragraphs : List String) (i : Nat)
    (hIR : options.include_references = true)
    (hi : i < paragraphs.length)
    (href : py_startswith (paragraphs.get ⟨i, hi⟩) "References" = true)
    (hfirst : ∀ j (hj : j < paragraphs.length), j < i →
      py_startswith (paragraphs.get ⟨j, hj⟩) "References" = false) :
    (translate_text_file translate options paragraphs).1 = paragraphs.take i ∧
    ∃ t, (translate_text_file translate options paragraphs).2 =
      .ok (t ++ String.intercalate "\n" (paragraphs.drop i)) := by
  have hfind : find_references_index paragraphs = some i := by
    simpa [find_references_index] using
      find_references_aux_first paragraphs 0 i hi href hfirst
  simp only [translate_text_file, hIR, if_true, hfind]
  cases hb : options.bilingual <;> simp <;> exact ⟨_, rfl⟩

theorem C8_references_never_translated_appended_verbatim_witness :
    (translate_text_file (fun s => s)
        ⟨"", 10, false, "Simplified Chinese", true, true, true⟩
        ["Intro", "References list"]).1 =
      (["Intro", "References list"].take 1) ∧
    ∃ t, (translate_text_file (fun s => s)
        ⟨"", 10, false, "Simplified Chinese", true, true, true⟩
        ["Intro", "References list"]).2 =
      .ok (t ++ String.intercalate "\n" (["Intro", "References list"].drop 1)) :=
  C8_references_never_translated_appended_verbatim (fun s => s)
    ⟨"", 10, false, "Simplified Chinese", true, true, true⟩
    ["Intro", "References list"] 1 rfl (by decide) (by decide)
    (fun j hj hlt => by
      have hj0 : j = 0 := by omega
      subst hj0
      show py_startswith "Intro" "References" = false
      decide)

theorem dropWhile_nl_replicate (k : Nat) (b : List Char) :
    (List.replicate k '\n' ++ b).dropWhile (fun c => c = '\n') =
      b.dropWhile (fun c => c = '\n') := by
  induction k with
  | zero => rfl
  | succ k ih =>
    simp only [List.replicate_succ, List.cons_append, List.dropWhile_cons]
    simp

theorem reSub_cons_not_nl (c : Char) (hc : c ≠ '\n') (l : List Char) :
    reSubNewlines (c :: l) = c :: reSubNewlines l := by
  cases l with
  | nil => simp [reSubNewlines]
  | cons d l' => simp [reSubNewlines, hc]

theorem reSub_cons_newline (b : List Char) :
    reSubNewlines ('\n' :: b) =
      '\n' :: reSubNewlines (b.dropWhile (fun c => c = '\n')) := by
  cases b with
  | nil => simp [reSubNewlines]
  | cons c b' =>
    by_cases hc : c = '\n'
    · subst hc
      simp [reSubNewlines, List.dropWhile_cons]
    · simp [reSubNewlines, List.dropWhile_cons, hc]

theorem reSub_replicate (k : Nat) (b : List Char) :
    reSubNewlines (List.replicate (k + 2) '\n' ++ b) =
      '\n' :: reSubNewlines (b.dropWhile (fun c => c = '\n')) := by
  have hshape : List.replicate (k + 2) '\n' ++ b =
      '\n' :: '\n' :: (List.replicate k '\n' ++ b) := by
    simp [List.replicate_succ]
  rw [hshape]
  have h2 := dropWhile_nl_replicate k b
  simp [reSubNewlines, h2]

theorem reSub_collapse_aux :
    ∀ (n : Nat) (a : List Char), a.length ≤ n → ∀ (k : Nat) (b : List Char),
      reSubNewlines (a ++ (List.replicate (k + 2) '\n' ++ b)) =
        reSubNewlines (a ++ ('\n' :: b)) := by
  intro n
  induction n with
  | zero =>
    intro a ha k b
    have ha0 : a = [] := List.eq_nil_of_length_eq_zero (Nat.le_zero.mp ha)
    subst ha0
    simp only [List.nil_append]
    rw [reSub_replicate, reSub_cons_newline]
  | succ n ih =>
    intro a ha k b
    cases a with
    | nil =>
      simp only [List.nil_append]
      rw [reSub_replicate, reSub_cons_newline]
    | cons c a' =>
      by_cases hc : c = '\n'
      · subst hc
        simp only [List.cons_append]
        rw [reSub_cons_newline, reSub_cons_newline]
        by_cases he : (a'.dropWhile (fun c => c = '\n')).isEmpty
        · have hL : (a' ++ (List.replicate (k + 2) '\n' ++ b)).dropWhile
              (fun c => c = '\n') = b.dropWhile (fun c => c = '\n') := by
            rw [List.dropWhile_append, if_pos he, dropWhile_nl_replicate]
          have hR : (a' ++ ('\n' :: b)).dropWhile (fun c => c = '\n') =
              b.dropWhile (fun c => c = '\n') := by
            rw [List.dropWhile_append, if_pos he, List.dropWhile_cons]
            simp
          rw [hL, hR]
        · have hL : (a' ++ (List.replicate (k + 2) '\n' ++ b)).dropWhile
              (fun c => c = '\n') =
              a'.dropWhile (fun c => c = '\n') ++
                (List.replicate (k + 2) '\n' ++ b) := by
            rw [List.dropWhile_append, if_neg he]
          have hR : (a' ++ ('\n' :: b)).dropWhile (fun c => c = '\n') =
              a'.dropWhile (fun c => c = '\n') ++ ('\n' :: b) := by
            rw [List.dropWhile_append, if_neg he]
          rw [hL, hR]
          have hlen : (a'.dropWhile (fun c => c = '\n')).length ≤ n :=
            le_trans (List.dropWhile_sublist _).length_le (by simpa using ha)
          exact congrArg _ (ih (a'.dropWhile (fun c => c = '\n')) hlen k b)
      · simp only [List.cons_append]
        rw [reSub_cons_not_nl c hc, reSub_cons_not_nl c hc]
        exact congrArg _ (ih a' (by simpa using ha) k b)

theorem reSub_no_double_fixpoint :
    ∀ l : List Char, no_double_newline l = true → reSubNewlines l = l := by
  intro l
  induction l with
  | nil => intro _; simp [reSubNewlines]
  | cons c l' ih =>
    intro h
    cases l' with
    | nil => simp [reSubNewlines]
    | cons d l'' =>
      simp only [no_double_newline, Bool.and_eq_true] at h
      obtain ⟨h1, h2⟩ := h
      have hnd : ¬(c = '\n' ∧ d = '\n') := by
        rintro ⟨hc, hd⟩
        subst hc
        subst hd
        simp at h1
      have hfix := ih h2
      simp [reSubNewlines, hnd, hfix]

/-- C7: in non-bilingual mode the reassembly collapses every run of two
or more consecutive newline characters to exactly one newline: replacing
any such run in the input by a single newline does not change the output,
inputs without consecutive newlines pass through unchanged, and
`"A\n\n\nB"` becomes `"A\nB"`. -/
theorem C7_non_bilingual_collapses_newline_runs :
    (∀ (a b : List Char) (k : Nat),
      reSubNewlines (a ++ (List.replicate (k + 2) '\n' ++ b)) =
        reSubNewlines (a ++ ('\n' :: b))) ∧
    (∀ l : List Char, no_double_newline l = true → reSubNewlines l = l) ∧
    removeExtraNewlines "A\n\n\nB" = "A\nB" := by
  refine ⟨fun a b k => reSub_collapse_aux a.length a (le_refl _) k b,
    reSub_no_double_fixpoint, ?_⟩
  show String.mk (reSubNewlines ['A', '\n', '\n', '\n', 'B']) = "A\nB"
  rw [show (['A', '\n', '\n', '\n', 'B'] : List Char) =
    'A' :: (List.replicate (1 + 2) '\n' ++ ['B']) from rfl]
  rw [reSub_cons_not_nl 'A' (by decide), reSub_replicate]
  rw [show reSubNewlines (['B'].dropWhile (fun c => c = '\n')) = ['B'] from by
    simp [reSubNewlines]]

theorem C7_non_bilingual_collapses_newline_runs_witness :
    no_double_newline "A\nB".data = true ∧
      reSubNewlines "A\nB".data = "A\nB".data :=
  ⟨by decide,
   C7_non_bilingual_collapses_newline_runs.2.1 "A\nB".data (by decide)⟩

end ChatGPTTranslate
